import Mathlib

/-!
Shallow embedding of the proof-of-stake kernel of the ClamsE repository
(src/pos.cpp) and verification of the claims about it.

The embedding translates src/pos.cpp function by function.  Code of the
repository that pos.cpp depends on but that is not part of the provided
source (hash.h, serialize.h, bignum.h, arith_uint256.h, uint256.h, pos.h
macros, chain parameters) is modelled from the specification, as marked on
each such definition.
-/

namespace ClamsE

/-- Modelled from the spec: little-endian serialization of an unsigned
integer into exactly `w` bytes (serialize.h is not under src/; the spec
pins all hash-preimage integers as little-endian). -/
def serLE (w : Nat) (x : Nat) : List Nat :=
  (List.range w).map (fun i => (x >>> (8 * i)) &&& 255)

/-- Modelled from the spec: read a little-endian byte list as a natural
number (byte 0 is least significant). -/
def leVal (bytes : List Nat) : Nat :=
  bytes.foldr (fun b acc => b + 256 * acc) 0

/-- C++ conversion of an int64 value to uint32 (reduction mod 2^32). -/
def toUInt32n (a : Int) : Nat :=
  (Int.emod a 4294967296).toNat

/-- C++ conversion of an int64 value to uint64 (reduction mod 2^64). -/
def toUInt64n (a : Int) : Nat :=
  (Int.emod a 18446744073709551616).toNat

/-- Bitwise AND of two int64 values in two-s complement, as C++ computes
it for `a & b`. -/
def land64 (a b : Int) : Int :=
  let n := Nat.land (toUInt64n a) (toUInt64n b)
  if n < 9223372036854775808 then (n : Int) else (n : Int) - 18446744073709551616

/-- Modelled from the spec: COIN, the number of satoshi per coin
(amount.h is not under src/; the spec glossary divides by COIN x 86400
for coin-day weight). -/
def COIN : Nat := 100000000

/-! ## SHA-256, modelled from the spec

hash.h is not under src/; the spec fixes the hash function as double
SHA-256 over the serialized preimage bytes.  The implementation below is
the standard SHA-256 algorithm (FIPS 180-4) on byte lists, 32-bit words
as naturals reduced mod 2^32. -/

/-- Rotate a 32-bit word right by n bit positions. -/
def rotr32 (n x : Nat) : Nat :=
  ((x >>> n) ||| (x <<< (32 - n))) &&& 4294967295

/-- The 64 round constants of FIPS 180-4, packed big-endian into a single
integer: word t sits at bit offset 32 * (63 - t). -/
def sha256KPacked : Nat :=
  0x428a2f9871374491b5c0fbcfe9b5dba53956c25b59f111f1923f82a4ab1c5ed5d807aa9812835b01243185be550c7dc372be5d7480deb1fe9bdc06a7c19bf174e49b69c1efbe47860fc19dc6240ca1cc2de92c6f4a7484aa5cb0a9dc76f988da983e5152a831c66db00327c8bf597fc7c6e00bf3d5a7914706ca63511429296727b70a852e1b21384d2c6dfc53380d13650a7354766a0abb81c2c92e92722c85a2bfe8a1a81a664bc24b8b70c76c51a3d192e819d6990624f40e3585106aa07019a4c1161e376c082748774c34b0bcb5391c0cb34ed8aa4a5b9cca4f682e6ff3748f82ee78a5636f84c878148cc7020890befffaa4506cebbef9a3f7c67178f2

/-- The 64 SHA-256 round constants, unpacked in order. -/
def sha256K : List Nat :=
  (List.range 64).map (fun t => (sha256KPacked >>> (32 * (63 - t))) &&& 4294967295)

/-- The eight initial hash words of FIPS 180-4, packed big-endian into a
single integer: word i sits at bit offset 32 * (7 - i). -/
def sha256H0Packed : Nat :=
  0x6a09e667bb67ae853c6ef372a54ff53a510e527f9b05688c1f83d9ab5be0cd19

/-- The SHA-256 initial hash state, unpacked in order. -/
def sha256H0 : List Nat :=
  (List.range 8).map (fun i => (sha256H0Packed >>> (32 * (7 - i))) &&& 4294967295)

/-- SHA-256 padding: append 0x80, zeros to 56 mod 64, then the bit length
as 8 big-endian bytes.  The zero count 119 - L mod 64 reduced mod 64 is
the unique count making the total a multiple of 64, computed without the
natural subtraction ever truncating (L mod 64 is at most 63). -/
def sha256Pad (msg : List Nat) : List Nat :=
  let L := msg.length
  let padZeros := (119 - L % 64) % 64
  msg ++ 128 :: List.replicate padZeros 0
      ++ (List.range 8).map (fun i => ((8 * L) >>> (8 * (7 - i))) &&& 255)

/-- Read four bytes as a big-endian 32-bit word. -/
def beWord (b : List Nat) : Nat :=
  b.foldl (fun a c => a * 256 + c) 0

/-- The 16 message-schedule words of one 64-byte block. -/
def blockWords (blk : List Nat) : List Nat :=
  (List.range 16).map (fun i => beWord ((blk.drop (4 * i)).take 4))

/-- One message-schedule extension step, appending word w(t) from
w(t-16), w(t-15), w(t-7), w(t-2). -/
def sha256ExtendStep (w : List Nat) : List Nat :=
  let n := w.length
  let w15 := w.getD (n - 15) 0
  let w2 := w.getD (n - 2) 0
  let s0 := (rotr32 7 w15) ^^^ (rotr32 18 w15) ^^^ (w15 >>> 3)
  let s1 := (rotr32 17 w2) ^^^ (rotr32 19 w2) ^^^ (w2 >>> 10)
  w ++ [(w.getD (n - 16) 0 + s0 + w.getD (n - 7) 0 + s1) % 4294967296]

/-- The full 64-word message schedule of one block. -/
def sha256Schedule (blk : List Nat) : List Nat :=
  Nat.repeat sha256ExtendStep 48 (blockWords blk)

/-- One SHA-256 compression round on the 8-word state. -/
def sha256Round (s : List Nat) (k w : Nat) : List Nat :=
  match s with
  | [a, b, c, d, e, f, g, hh] =>
    let s1 := (rotr32 6 e) ^^^ (rotr32 11 e) ^^^ (rotr32 25 e)
    let ch := (e &&& f) ^^^ ((e ^^^ 4294967295) &&& g)
    let t1 := (hh + s1 + ch + k + w) % 4294967296
    let s0 := (rotr32 2 a) ^^^ (rotr32 13 a) ^^^ (rotr32 22 a)
    let mj := (a &&& b) ^^^ (a &&& c) ^^^ (b &&& c)
    let t2 := (s0 + mj) % 4294967296
    [(t1 + t2) % 4294967296, a, b, c, (d + t1) % 4294967296, e, f, g]
  | _ => s

/-- Compress one 64-byte block into the running state. -/
def sha256Compress (h : List Nat) (blk : List Nat) : List Nat :=
  let st := (sha256K.zip (sha256Schedule blk)).foldl
    (fun s kw => sha256Round s kw.1 kw.2) h
  (h.zip st).map (fun q => (q.1 + q.2) % 4294967296)

/-- Fold `n` 64-byte blocks of `bytes` into the state. -/
def sha256Blocks : Nat → List Nat → List Nat → List Nat
  | 0, h, _ => h
  | n + 1, h, bytes => sha256Blocks n (sha256Compress h (bytes.take 64)) (bytes.drop 64)

/-- SHA-256 of a byte list, as the 32 digest bytes in emission order. -/
def sha256 (msg : List Nat) : List Nat :=
  let padded := sha256Pad msg
  let hfin := sha256Blocks (padded.length / 64) sha256H0 padded
  hfin.flatMap (fun w => [(w >>> 24) &&& 255, (w >>> 16) &&& 255, (w >>> 8) &&& 255, w &&& 255])

/-- Modelled from the spec: Hash, the double SHA-256 of the preimage
bytes, read as a uint256 (little-endian byte order, as uint256 stores the
digest bytes directly and its numeric value reads byte 0 as least
significant). -/
def Hash256 (bytes : List Nat) : Nat :=
  leVal (sha256 (sha256 bytes))

/-! ## Compact target encodings

bignum.h and arith_uint256.h are not under src/; the spec pins the
compact-target expansion as identical to Bitcoin nBits encoding (3-byte
mantissa, 1-byte exponent, mantissa sign bit 0x00800000). -/

/-- Modelled from the spec: CBigNum::SetCompact, the signed
arbitrary-precision expansion of an nBits compact target (used by the V2
kernel check). -/
def setCompactBig (nCompact : Nat) : Int :=
  let nSize := nCompact >>> 24
  let nWord := nCompact &&& 0x007fffff
  let mag : Nat :=
    if nSize ≤ 3 then nWord >>> (8 * (3 - nSize)) else nWord <<< (8 * (nSize - 3))
  if nCompact &&& 0x00800000 ≠ 0 then -(mag : Int) else (mag : Int)

/-- Modelled from the spec: arith_uint256::SetCompact, the 256-bit
expansion of an nBits compact target (used by the V1 kernel check);
the value wraps mod 2^256 and the sign bit only feeds a flag the caller
ignores. -/
def setCompact256 (nCompact : Nat) : Nat :=
  let nSize := nCompact >>> 24
  let nWord := nCompact &&& 0x007fffff
  (if nSize ≤ 3 then nWord >>> (8 * (3 - nSize)) else nWord <<< (8 * (nSize - 3)))
    % (2 ^ 256)

/-! ## Data model

Block index nodes, blocks, transactions and coins are external
collaborators of pos.cpp (chain.h, primitives, coins.h are not under
src/); the structures below carry exactly the fields pos.cpp reads, per
the spec data model.  uint256 values are naturals below 2^256, read
little-endian; the spec fixes uint256 comparison and shift as big-integer
operations.  A block hash or header hash is carried as a field: header
hashing happens outside this subsystem. -/

/-- Modelled from the spec: the consensus parameter set (chainparams and
the pos.h macros MODIFIER_INTERVAL_RATIO and STAKE_TIMESTAMP_MASK are not
under src/; the spec lists all of these as immutable parameters, with the
interval ratio named MIR). -/
structure CParams where
  nStakeMinAge : Int
  nStakeMaxAge : Int
  nModifierInterval : Int
  nTargetSpacing : Int
  nProtocolV2Height : Int
  nCoinbaseMaturity : Int
  stakeTimestampMask : Int
  mir : Int
deriving DecidableEq

/-- A block index node: the fields of CBlockIndex that pos.cpp reads.
Chain links (pprev, pnext) are represented by the list contexts the
walking functions receive. -/
structure BIdx where
  nHeight : Int
  nTime : Int
  hashBlock : Nat
  hashProof : Nat
  nStakeModifier : Nat
  generatedStakeModifier : Bool
  stakeEntropyBit : Nat
  isProofOfStake : Bool
deriving DecidableEq

/-- A block read from disk: pos.cpp reads only GetBlockTime() and
GetHash() from it (the header hash is computed outside this subsystem and
carried as a field). -/
structure CBlock where
  nTime : Int
  hashBlock : Nat
deriving DecidableEq

/-- A transaction output: pos.cpp reads only nValue. -/
structure CTxOut where
  nValue : Int
deriving DecidableEq

/-- An outpoint (txid, n). -/
structure COutPoint where
  hash : Nat
  n : Nat
deriving DecidableEq

/-- A transaction input: pos.cpp reads only prevout. -/
structure CTxIn where
  prevout : COutPoint
deriving DecidableEq

/-- A transaction: the fields pos.cpp reads.  IsCoinStake() is a shape
predicate defined outside src/ and carried as a field. -/
structure CTransaction where
  nTime : Nat
  vin : List CTxIn
  vout : List CTxOut
  isCoinStake : Bool
deriving DecidableEq

/-- A UTXO entry: the fields pos.cpp reads. -/
structure Coin where
  nHeight : Int
  spent : Bool
deriving DecidableEq

/-! ## pos.cpp, function by function -/

/-- GetWeight (pos.cpp:23): min(nIntervalEnd - nIntervalBeginning -
nStakeMinAge, nStakeMaxAge), in int64 arithmetic. -/
def GetWeight (p : CParams) (nIntervalBeginning nIntervalEnd : Int) : Int :=
  min (nIntervalEnd - nIntervalBeginning - p.nStakeMinAge) p.nStakeMaxAge

/-- GetLastStakeModifier (pos.cpp:33): walk back from the given node
(head of the list; the tail is its ancestor chain) while the node has a
parent and did not generate a modifier; return that modifier and its
block time, or fail on a null node or an ungenerated genesis. -/
def GetLastStakeModifier : List BIdx → Option (Nat × Int)
  | [] => none
  | p :: rest =>
    match rest with
    | [] => if p.generatedStakeModifier then some (p.nStakeModifier, p.nTime) else none
    | _ :: _ =>
      if p.generatedStakeModifier then some (p.nStakeModifier, p.nTime)
      else GetLastStakeModifier rest

/-- GetStakeModifierSelectionIntervalSection (pos.cpp:49):
nModifierInterval * 63 / (63 + (63 - nSection) * (MIR - 1)), truncating
int64 division (the source asserts 0 <= nSection < 64). -/
def GetStakeModifierSelectionIntervalSection (p : CParams) (nSection : Nat) : Int :=
  Int.tdiv (p.nModifierInterval * 63) (63 + ((63 : Int) - (nSection : Int)) * (p.mir - 1))

/-- GetStakeModifierSelectionInterval (pos.cpp:56): the sum of the 64
selection interval sections. -/
def GetStakeModifierSelectionInterval (p : CParams) : Int :=
  (List.range 64).foldl (fun acc n => acc + GetStakeModifierSelectionIntervalSection p n) 0

/-- The candidate scan of SelectBlockFromCandidates (pos.cpp:74): walk
the sorted (time, hash) list; resolve each hash in the block index map
(error out if missing); break once something is selected and the current
block time passes the stop; skip already selected blocks; hash the proof
hash with the previous modifier, halving PoS hashes by 2^32; keep the
smallest.  `best` carries (hashBest, pindexSelected). -/
def selectLoop (lookup : Nat → Option BIdx) (selectedBlocks : List Nat)
    (stop : Int) (nStakeModifierPrev : Nat) :
    List (Int × Nat) → Option (Nat × BIdx) → Option BIdx
  | [], best => best.map (fun b => b.2)
  | item :: rest, best =>
    match lookup item.2 with
    | none => none
    | some pindex =>
      if best.isSome = true ∧ pindex.nTime > stop then best.map (fun b => b.2)
      else if selectedBlocks.contains pindex.hashBlock then
        selectLoop lookup selectedBlocks stop nStakeModifierPrev rest best
      else
        let hashSelection0 := Hash256 (serLE 32 pindex.hashProof ++ serLE 8 nStakeModifierPrev)
        let hashSelection := if pindex.isProofOfStake then hashSelection0 >>> 32 else hashSelection0
        match best with
        | some (hashBest, _) =>
          if hashSelection < hashBest then
            selectLoop lookup selectedBlocks stop nStakeModifierPrev rest (some (hashSelection, pindex))
          else
            selectLoop lookup selectedBlocks stop nStakeModifierPrev rest best
        | none =>
          selectLoop lookup selectedBlocks stop nStakeModifierPrev rest (some (hashSelection, pindex))

/-- SelectBlockFromCandidates (pos.cpp:67): run the candidate scan with
no selection yet; some node on success, none when the loop ends
unselected or a candidate hash is not in the block index map. -/
def SelectBlockFromCandidates (lookup : Nat → Option BIdx)
    (vSortedByTimestamp : List (Int × Nat)) (selectedBlocks : List Nat)
    (nSelectionIntervalStop : Int) (nStakeModifierPrev : Nat) : Option BIdx :=
  selectLoop lookup selectedBlocks nSelectionIntervalStop nStakeModifierPrev vSortedByTimestamp none

/-- Lexicographic order on (time, hash) pairs, the order std::sort uses
on std::pair in pos.cpp:158. -/
def pairLe (a b : Int × Nat) : Prop :=
  a.1 < b.1 ∨ (a.1 = b.1 ∧ a.2 ≤ b.2)

instance (a b : Int × Nat) : Decidable (pairLe a b) := by
  unfold pairLe; infer_instance

/-- Insert into a lexicographically sorted (time, hash) list. -/
def insertSorted (x : Int × Nat) : List (Int × Nat) → List (Int × Nat)
  | [] => [x]
  | y :: t => if pairLe x y then x :: y :: t else y :: insertSorted x t

/-- Sort (time, hash) pairs ascending lexicographically.  std::sort with
the pair order yields this exact list: the order is total and
antisymmetric, so the sorted permutation is unique as a value. -/
def sortPairs (l : List (Int × Nat)) : List (Int × Nat) :=
  l.foldr insertSorted []

/-- The candidate collection loop of ComputeNextStakeModifier
(pos.cpp:152): walk back from prev (head of the list) while the block
time is at least the selection start, collecting (time, hash). -/
def collectCandidates (nSelectionIntervalStart : Int) : List BIdx → List (Int × Nat)
  | [] => []
  | p :: rest =>
    if p.nTime ≥ nSelectionIntervalStart then
      (p.nTime, p.hashBlock) :: collectCandidates nSelectionIntervalStart rest
    else []

/-- The 64-round selection loop of ComputeNextStakeModifier
(pos.cpp:164): per round, advance the stop by the round section, select a
candidate, set bit nRound of the new modifier to its entropy bit, and add
its hash to the selected set; none as soon as a round selects nothing. -/
def modifierRounds (p : CParams) (lookup : Nat → Option BIdx)
    (sorted : List (Int × Nat)) (nStakeModifierPrev : Nat) :
    List Nat → Int → List Nat → Nat → Option Nat
  | [], _, _, acc => some acc
  | nRound :: rest, stop, selectedBlocks, acc =>
    let stop2 := stop + GetStakeModifierSelectionIntervalSection p nRound
    match SelectBlockFromCandidates lookup sorted selectedBlocks stop2 nStakeModifierPrev with
    | none => none
    | some pindex =>
      modifierRounds p lookup sorted nStakeModifierPrev rest stop2
        (pindex.hashBlock :: selectedBlocks)
        ((acc ||| (pindex.stakeEntropyBit <<< nRound)) % (2 ^ 64))

/-- The observable outcome of ComputeNextStakeModifier: the returned
bool together with the two reference out-parameters at return time. -/
structure ModifierOut where
  ok : Bool
  nStakeModifier : Nat
  fGeneratedStakeModifier : Bool
deriving DecidableEq

/-- ComputeNextStakeModifier (pos.cpp:125).  pindexPrev is the parent
node followed by its ancestor chain ([] for the genesis null case);
`lookup` is the global mapBlockIndex.  Out-parameters start at (0, false);
GetLastStakeModifier writes the current modifier through the reference,
so a later selection failure returns with that modifier still in place. -/
def ComputeNextStakeModifier (p : CParams) (lookup : Nat → Option BIdx)
    (pindexPrev : List BIdx) : ModifierOut :=
  match pindexPrev with
  | [] => ⟨true, 0, true⟩
  | prev :: _ =>
    match GetLastStakeModifier pindexPrev with
    | none => ⟨false, 0, false⟩
    | some (nStakeModifier, nModifierTime) =>
      if Int.tdiv nModifierTime p.nModifierInterval ≥ Int.tdiv prev.nTime p.nModifierInterval then
        ⟨true, nStakeModifier, false⟩
      else
        let nSelectionInterval := GetStakeModifierSelectionInterval p
        let nSelectionIntervalStart :=
          Int.tdiv prev.nTime p.nModifierInterval * p.nModifierInterval - nSelectionInterval
        let vSortedByTimestamp :=
          sortPairs (collectCandidates nSelectionIntervalStart pindexPrev).reverse
        match modifierRounds p lookup vSortedByTimestamp nStakeModifier
            (List.range (min 64 vSortedByTimestamp.length))
            nSelectionIntervalStart [] 0 with
        | none => ⟨false, nStakeModifier, false⟩
        | some nStakeModifierNew => ⟨true, nStakeModifierNew, true⟩

/-- The outcome of GetKernelStakeModifier (pos.cpp:188): ok with the
modifier, a soft false (plain return false: node may be behind), or a
hard error (the error(...) returns). -/
inductive KernelModResult where
  | ok (nStakeModifier : Nat)
  | softFail
  | hardErr
deriving DecidableEq

/-- The forward walk of GetKernelStakeModifier (pos.cpp:201): while the
running modifier time has not reached the target, step to pnext (the head
of rest); at the tip, error hard when printing or when the current node
is old by the min-age test, else fail soft; advancing onto a generating
node updates the modifier time; once the target is reached, return the
modifier of the node reached. -/
def getKernelStakeModifierLoop (p : CParams) (adjustedTime : Int) (fPrint : Bool)
    (interval targetTime : Int) :
    BIdx → List BIdx → Int → KernelModResult
  | cur, rest, nStakeModifierTime =>
    if nStakeModifierTime < targetTime then
      match rest with
      | [] =>
        if fPrint = true ∨ cur.nTime + p.nStakeMinAge - interval > adjustedTime then
          KernelModResult.hardErr
        else KernelModResult.softFail
      | nxt :: rest2 =>
        getKernelStakeModifierLoop p adjustedTime fPrint interval targetTime nxt rest2
          (if nxt.generatedStakeModifier then nxt.nTime else nStakeModifierTime)
    else KernelModResult.ok cur.nStakeModifier

/-- GetKernelStakeModifier (pos.cpp:188): resolve the from-block hash in
the block index (hard error when missing — `lookupFwd` returns the node
and its pnext successors along the active chain), then walk forward one
selection interval past the from-block time. -/
def GetKernelStakeModifier (p : CParams) (lookupFwd : Nat → Option (BIdx × List BIdx))
    (adjustedTime : Int) (hashBlockFrom : Nat) (fPrint : Bool) : KernelModResult :=
  match lookupFwd hashBlockFrom with
  | none => KernelModResult.hardErr
  | some (pindexFrom, fwd) =>
    let nStakeModifierSelectionInterval := GetStakeModifierSelectionInterval p
    getKernelStakeModifierLoop p adjustedTime fPrint nStakeModifierSelectionInterval
      (pindexFrom.nTime + nStakeModifierSelectionInterval) pindexFrom fwd pindexFrom.nTime

/-- The outcome of a kernel hash check: pass (return true, with the two
out-parameters), a soft false after the hash comparison, the nTime
violation error, the min age violation error, or a plain false because
the V1 modifier lookup failed. -/
inductive KernelHashResult where
  | pass (hashProof : Nat) (target : Int)
  | failHash (hashProof : Nat) (target : Int)
  | errNTime
  | errMinAge
  | failModifier
deriving DecidableEq

/-- CheckStakeKernelHashV1 (pos.cpp:245): preflights, coin-day-weighted
256-bit target (arith_uint256 arithmetic wraps mod 2^256; int64 operands
convert to uint64), time-shifted modifier lookup, then double SHA-256 of
modifier, block-from time, tx offset, prev tx time, prevout index and tx
time, compared against the weighted target. -/
def CheckStakeKernelHashV1 (p : CParams) (lookupFwd : Nat → Option (BIdx × List BIdx))
    (adjustedTime : Int) (nBits : Nat) (blockFrom : CBlock) (nTxPrevOffset : Nat)
    (txPrev : CTransaction) (prevout : COutPoint) (nTimeTx : Nat) (fPrint : Bool) :
    KernelHashResult :=
  if nTimeTx < txPrev.nTime then KernelHashResult.errNTime
  else
    let nTimeBlockFrom : Nat := toUInt32n blockFrom.nTime
    if (nTimeBlockFrom : Int) + p.nStakeMinAge > (nTimeTx : Int) then KernelHashResult.errMinAge
    else
      let bnTargetPerCoinDay := setCompact256 nBits
      let nValueIn := (txPrev.vout.getD prevout.n ⟨0⟩).nValue
      let hashBlockFrom := blockFrom.hashBlock
      let bnCoinDayWeight : Nat :=
        toUInt64n nValueIn * toUInt64n (GetWeight p (txPrev.nTime : Int) (nTimeTx : Int))
          % (2 ^ 256) / COIN / 86400
      let targetProofOfStake : Nat := bnCoinDayWeight * bnTargetPerCoinDay % (2 ^ 256)
      match GetKernelStakeModifier p lookupFwd adjustedTime hashBlockFrom fPrint with
      | KernelModResult.ok nStakeModifier =>
        let ss := serLE 8 nStakeModifier ++ serLE 4 nTimeBlockFrom ++ serLE 4 nTxPrevOffset
          ++ serLE 4 txPrev.nTime ++ serLE 4 prevout.n ++ serLE 4 nTimeTx
        let hashProofOfStake := Hash256 ss
        if hashProofOfStake > bnCoinDayWeight * bnTargetPerCoinDay % (2 ^ 256) then
          KernelHashResult.failHash hashProofOfStake (targetProofOfStake : Int)
        else KernelHashResult.pass hashProofOfStake (targetProofOfStake : Int)
      | _ => KernelHashResult.failModifier

/-- CheckStakeKernelHashV2 (pos.cpp:330): preflights, value-weighted
target in signed arbitrary-precision arithmetic (CBigNum), modifier taken
directly from the parent index, then double SHA-256 of modifier,
block-from time, prev tx time, prevout txid, prevout index and tx time,
compared against the weighted target.  V2 never writes the target
out-parameter; the computed target is carried in the result. -/
def CheckStakeKernelHashV2 (p : CParams) (pindexPrev : BIdx) (nBits : Nat)
    (nTimeBlockFrom : Nat) (txPrev : CTransaction) (prevout : COutPoint)
    (nTimeTx : Nat) : KernelHashResult :=
  if nTimeTx < txPrev.nTime then KernelHashResult.errNTime
  else if (nTimeBlockFrom : Int) + p.nStakeMinAge > (nTimeTx : Int) then
    KernelHashResult.errMinAge
  else
    let bnTarget := setCompactBig nBits
    let nValueIn := (txPrev.vout.getD prevout.n ⟨0⟩).nValue
    let bnTarget := bnTarget * nValueIn
    let nStakeModifier := pindexPrev.nStakeModifier
    let ss := serLE 8 nStakeModifier ++ serLE 4 nTimeBlockFrom ++ serLE 4 txPrev.nTime
      ++ serLE 32 prevout.hash ++ serLE 4 prevout.n ++ serLE 4 nTimeTx
    let hashProofOfStake := Hash256 ss
    if (hashProofOfStake : Int) > bnTarget then
      KernelHashResult.failHash hashProofOfStake bnTarget
    else KernelHashResult.pass hashProofOfStake bnTarget

/-- CheckStakeKernelHash (pos.cpp:456): dispatch on pindexPrev.nHeight +
1 > nProtocolV2Height; V2 receives the block-from time converted from
int64 to the unsigned int parameter. -/
def CheckStakeKernelHash (p : CParams) (lookupFwd : Nat → Option (BIdx × List BIdx))
    (adjustedTime : Int) (pindexPrev : BIdx) (nBits : Nat) (blockFrom : CBlock)
    (nTxPrevOffset : Nat) (txPrev : CTransaction) (prevout : COutPoint)
    (nTimeTx : Nat) (fPrint : Bool) : KernelHashResult :=
  if pindexPrev.nHeight + 1 > p.nProtocolV2Height then
    CheckStakeKernelHashV2 p pindexPrev nBits (toUInt32n blockFrom.nTime) txPrev prevout nTimeTx
  else
    CheckStakeKernelHashV1 p lookupFwd adjustedTime nBits blockFrom nTxPrevOffset
      txPrev prevout nTimeTx fPrint

/-- CheckCoinStakeTimestamp (pos.cpp:467): above the V2 height the block
and tx times must agree and the tx time must clear the timestamp mask;
otherwise only the equality is required. -/
def CheckCoinStakeTimestamp (p : CParams) (nHeight : Int) (nTimeBlock nTimeTx : Int) : Bool :=
  if nHeight > p.nProtocolV2Height then
    nTimeBlock == nTimeTx && (land64 nTimeTx p.stakeTimestampMask == 0)
  else
    nTimeBlock == nTimeTx

/-- The rejection reasons of CheckProofOfStake, in source order. -/
inductive DosTag where
  | prevoutMissing
  | ancestorMissing
  | blockNotFound
  | prevoutNotInChain
  | verifySig
  | kernel
deriving DecidableEq

/-- The outcome of CheckProofOfStake: the non-coinstake fatal error, a
state.DoS rejection with its score, or success with the two hash
out-parameters. -/
inductive PoSResult where
  | errNotCoinstake
  | dos (score : Nat) (tag : DosTag)
  | ok (hashProof : Nat) (target : Int)
deriving DecidableEq

/-- The external collaborators CheckProofOfStake consults, per the spec
interface list: UTXO view, ancestor lookup on pindexPrev, block store,
transaction index, tx-offset index, script verification, the block index
with forward links for the V1 modifier walk, the adjusted clock, and the
global debug flag passed as fPrintProofOfStake. -/
structure Env where
  getCoin : COutPoint → Option Coin
  getAncestor : Int → Option BIdx
  readBlock : BIdx → Option CBlock
  getTransaction : Nat → Option CTransaction
  readTxOffset : Int → Nat
  verifySignature : Coin → CTransaction → Bool
  lookupFwd : Nat → Option (BIdx × List BIdx)
  adjustedTime : Int
  fDebug : Bool

/-- CheckProofOfStake (pos.cpp:405): coinstake shape check, prevout coin
lookup (DoS 100), ancestor at the coin height (DoS 100), block read
(DoS 100), prev transaction fetch (DoS 1), tx offset read, signature
check (DoS 100), then the kernel hash check — any kernel failure is
DoS 1. -/
def CheckProofOfStake (p : CParams) (env : Env) (pindexPrev : BIdx)
    (tx : CTransaction) (nBits : Nat) : PoSResult :=
  if tx.isCoinStake = false then PoSResult.errNotCoinstake
  else
    let txin := tx.vin.getD 0 ⟨⟨0, 0⟩⟩
    match env.getCoin txin.prevout with
    | none => PoSResult.dos 100 DosTag.prevoutMissing
    | some coinPrev =>
      match env.getAncestor coinPrev.nHeight with
      | none => PoSResult.dos 100 DosTag.ancestorMissing
      | some blockFromIdx =>
        match env.readBlock blockFromIdx with
        | none => PoSResult.dos 100 DosTag.blockNotFound
        | some block =>
          match env.getTransaction txin.prevout.hash with
          | none => PoSResult.dos 1 DosTag.prevoutNotInChain
          | some txPrev =>
            let nTxOffset := env.readTxOffset pindexPrev.nHeight
            if env.verifySignature coinPrev tx = false then
              PoSResult.dos 100 DosTag.verifySig
            else
              match CheckStakeKernelHash p env.lookupFwd env.adjustedTime pindexPrev nBits
                  block nTxOffset txPrev txin.prevout tx.nTime env.fDebug with
              | KernelHashResult.pass h t => PoSResult.ok h t
              | _ => PoSResult.dos 1 DosTag.kernel

/-! ## Specification-side definitions used to state claims -/

/-- The per-round selection exactly as the claim words it, over candidates
that carry their block data directly (the spec model resolves candidates
before scanning): scan in order; stop as soon as a best exists and the
current block time exceeds the stop; skip already selected; selection
hash is the double SHA-256 of (hash proof, previous modifier), shifted
right 32 bits for proof-of-stake candidates; take on no best yet or a
strictly smaller hash; fail exactly when nothing was taken. -/
def selectSpecLoop (selectedBlocks : List Nat) (stop : Int) (prevModifier : Nat) :
    List BIdx → Option (Nat × BIdx) → Option BIdx
  | [], best => best.map (fun b => b.2)
  | c :: rest, best =>
    if best.isSome = true ∧ c.nTime > stop then best.map (fun b => b.2)
    else if selectedBlocks.contains c.hashBlock then
      selectSpecLoop selectedBlocks stop prevModifier rest best
    else
      let h0 := Hash256 (serLE 32 c.hashProof ++ serLE 8 prevModifier)
      let h := if c.isProofOfStake then h0 >>> 32 else h0
      match best with
      | some (hashBest, _) =>
        if h < hashBest then selectSpecLoop selectedBlocks stop prevModifier rest (some (h, c))
        else selectSpecLoop selectedBlocks stop prevModifier rest best
      | none => selectSpecLoop selectedBlocks stop prevModifier rest (some (h, c))

/-- The node at which the forward walk of GetKernelStakeModifier runs out
of next links while the running modifier time is still short of the
target, or none when the walk completes: the walk the claim about the
reached-tip error paths quantifies over. -/
def kernelWalkTip (targetTime : Int) : BIdx → List BIdx → Int → Option BIdx
  | cur, rest, nStakeModifierTime =>
    if nStakeModifierTime < targetTime then
      match rest with
      | [] => some cur
      | nxt :: rest2 =>
        kernelWalkTip targetTime nxt rest2
          (if nxt.generatedStakeModifier then nxt.nTime else nStakeModifierTime)
    else none

/-! ## Concrete instances used by the witnesses and counterexamples -/

/-- Parameters for the C1 witness. -/
def pC1 : CParams := ⟨3600, 86400, 600, 64, 1000, 500, 15, 3⟩

/-- Parent index node for the C1 witness. -/
def idxC1 : BIdx := ⟨2000, 5000, 21, 9, 77, true, 1, true⟩

/-- Previous transaction for the C1 witness. -/
def txPrevC1 : CTransaction := ⟨100, [], [⟨250000000⟩], false⟩

/-- Candidate block index for the C2 witness. -/
def bC2 : BIdx := ⟨3, 50, 70, 11, 99, true, 1, true⟩

/-- Block index map for the C2 witness. -/
def lookupC2 : Nat → Option BIdx := fun h => if h = 70 then some bC2 else none

/-- Parameters for the C3 theorems: modifier interval 60, min age 10. -/
def pC3 : CParams := ⟨10, 100, 60, 64, 1000, 500, 15, 3⟩

/-- The from-block of the C3 walk: very old block time 0. -/
def bC3a : BIdx := ⟨1, 0, 70, 5, 9, true, 1, false⟩

/-- The tip the C3 walk reaches: very recent block time 10^9, did not
generate a modifier. -/
def bC3b : BIdx := ⟨2, 1000000000, 71, 6, 13, false, 0, false⟩

/-- Block index with forward links for the C3 theorems. -/
def lookupC3 : Nat → Option (BIdx × List BIdx) :=
  fun h => if h = 70 then some (bC3a, [bC3b]) else none

/-- Parameters for the C4 witness. -/
def pC4 : CParams := ⟨3600, 86400, 600, 64, 1000, 500, 15, 3⟩

/-- Chain node for the C4 witness: generated a modifier at time 1100. -/
def bC4 : BIdx := ⟨5, 1100, 30, 8, 314, true, 0, false⟩

/-- Parameters for the C5 witness: the spec section-sum boundary test
uses modifier interval 600. -/
def pC5 : CParams := ⟨3600, 86400, 600, 64, 1000, 500, 15, 3⟩

/-- Parameters for the C6 witness: V2 activation height 1000. -/
def pC6 : CParams := ⟨3600, 86400, 600, 64, 1000, 500, 15, 3⟩

/-- Parent index node at exactly height v2 - 1, so the new block height
equals the V2 activation height. -/
def idxC6 : BIdx := ⟨999, 5000, 22, 9, 78, true, 1, true⟩

/-- Block for the C6 witness. -/
def blkC6 : CBlock := ⟨900, 40⟩

/-- Previous transaction for the C6 witness. -/
def txPrevC6 : CTransaction := ⟨100, [], [⟨250000000⟩], false⟩

/-- Parameters for the C7 witness: mask 15, V2 height 1000 (the spec
scenario 6 literals). -/
def pC7 : CParams := ⟨3600, 86400, 600, 64, 1000, 500, 15, 3⟩

/-- Parameters for the C8 witness: min age 3600. -/
def pC8 : CParams := ⟨3600, 86400, 600, 64, 1000, 500, 15, 3⟩

/-- Block whose time 400 puts the C8 witness exactly at min age for tx
time 4000. -/
def blkC8 : CBlock := ⟨400, 41⟩

/-- Previous transaction for the C8 witness. -/
def txPrevC8 : CTransaction := ⟨100, [], [⟨250000000⟩], false⟩

/-- Parent index node for the C8 witness. -/
def idxC8 : BIdx := ⟨2000, 5000, 23, 9, 79, true, 1, true⟩

/-- Parameters for the C9 theorems. -/
def pC9 : CParams := ⟨3600, 86400, 600, 64, 1000, 500, 15, 3⟩

/-- Parent index node for the C9 theorems: height 2000, so the kernel
check dispatches V2. -/
def idxC9 : BIdx := ⟨2000, 5000, 24, 9, 80, true, 1, true⟩

/-- The coin the C9 coinstake spends. -/
def coinC9 : Coin := ⟨5, false⟩

/-- The ancestor node at the coin height for C9. -/
def bfiC9 : BIdx := ⟨5, 900, 25, 10, 81, true, 0, false⟩

/-- The block read from disk for C9. -/
def blkC9 : CBlock := ⟨900, 42⟩

/-- The previous transaction for C9: its time 100 exceeds the coinstake
time 50, so the kernel preflight rejects with the nTime violation. -/
def txPrevC9 : CTransaction := ⟨100, [], [⟨250000000⟩], false⟩

/-- The coinstake transaction for C9, with time 50. -/
def txC9 : CTransaction := ⟨50, [⟨⟨7, 0⟩⟩], [], true⟩

/-- The collaborators for C9: every lookup succeeds and the signature
verifies, so only the kernel check can reject. -/
def envC9 : Env :=
  ⟨fun _ => some coinC9, fun _ => some bfiC9, fun _ => some blkC9,
   fun _ => some txPrevC9, fun _ => 0, fun _ _ => true, fun _ => none, 0, false⟩

/-- Parameters for the C10 witness: modifier interval 600. -/
def pC10 : CParams := ⟨3600, 86400, 600, 64, 1000, 500, 15, 3⟩

/-- The older chain node for C10: generated modifier 42 at time 1000
(epoch 1). -/
def bC10a : BIdx := ⟨1, 1000, 77, 5, 42, true, 1, false⟩

/-- The parent node for C10: time 1700 (epoch 2), no generation flag. -/
def bC10b : BIdx := ⟨2, 1700, 88, 6, 0, false, 0, true⟩

/-! ## Helper lemmas -/

/-- Folding additions from the left equals adding the mapped sum. -/
theorem foldl_add_map (f : Nat → Int) (l : List Nat) :
    ∀ i : Int, l.foldl (fun acc n => acc + f n) i = i + (l.map f).sum := by
  induction l with
  | nil => intro i; simp
  | cons a t ih => intro i; simp [ih, add_assoc]

/-! ## The claims -/

/-- C4: for every non-null prev whose last recorded stake modifier M has
generation time T with T / modifier interval at least prev time /
modifier interval (truncating division), ComputeNextStakeModifier
succeeds and returns the unchanged modifier M with the generated flag
false. -/
theorem claim4_same_epoch_noop (p : CParams) (lookup : Nat → Option BIdx)
    (prev : BIdx) (rest : List BIdx) (m : Nat) (tmod : Int)
    (hg : GetLastStakeModifier (prev :: rest) = some (m, tmod))
    (he : Int.tdiv tmod p.nModifierInterval ≥ Int.tdiv prev.nTime p.nModifierInterval) :
    ComputeNextStakeModifier p lookup (prev :: rest) = ⟨true, m, false⟩ := by
  unfold ComputeNextStakeModifier
  rw [hg]
  simp [he]

/-- C4 witness: a one-node chain in the same epoch keeps its modifier. -/
theorem claim4_same_epoch_noop_witness :
    GetLastStakeModifier [bC4] = some (314, 1100)
    ∧ Int.tdiv (1100 : Int) pC4.nModifierInterval ≥ Int.tdiv bC4.nTime pC4.nModifierInterval
    ∧ ComputeNextStakeModifier pC4 (fun _ => none) [bC4] = ⟨true, 314, false⟩ :=
  ⟨by decide, by decide,
   claim4_same_epoch_noop pC4 (fun _ => none) bC4 [] 314 1100 (by decide) (by decide)⟩

/-- C5: every section n below 64 equals modifier interval times 63
divided (truncating) by 63 + (63 - n) * (MIR - 1), and the selection
interval — the value both ComputeNextStakeModifier and
GetKernelStakeModifier obtain from GetStakeModifierSelectionInterval —
equals the sum of the 64 sections. -/
theorem claim5_selection_interval (p : CParams) :
    (∀ n : Nat, n < 64 → GetStakeModifierSelectionIntervalSection p n
        = Int.tdiv (p.nModifierInterval * 63) (63 + ((63 : Int) - (n : Int)) * (p.mir - 1)))
    ∧ GetStakeModifierSelectionInterval p
        = ((List.range 64).map (fun n =>
            Int.tdiv (p.nModifierInterval * 63) (63 + ((63 : Int) - (n : Int)) * (p.mir - 1)))).sum := by
  constructor
  · intro n _
    rfl
  · unfold GetStakeModifierSelectionInterval
    rw [foldl_add_map (fun n => GetStakeModifierSelectionIntervalSection p n) (List.range 64) 0]
    rw [zero_add]
    rfl

/-- C5 witness: the section formula and the section sum at the spec
parameters (modifier interval 600). -/
theorem claim5_selection_interval_witness :
    (0 : Nat) < 64
    ∧ GetStakeModifierSelectionIntervalSection pC5 0
        = Int.tdiv (pC5.nModifierInterval * 63) (63 + ((63 : Int) - ((0 : Nat) : Int)) * (pC5.mir - 1))
    ∧ GetStakeModifierSelectionInterval pC5
        = ((List.range 64).map (fun n =>
            Int.tdiv (pC5.nModifierInterval * 63) (63 + ((63 : Int) - (n : Int)) * (pC5.mir - 1)))).sum :=
  ⟨by decide, (claim5_selection_interval pC5).1 0 (by decide), (claim5_selection_interval pC5).2⟩

/-- C6: CheckStakeKernelHash dispatches to the V2 check exactly when
prev height + 1 is strictly greater than the V2 activation height, and
at exactly the activation height it runs V1. -/
theorem claim6_version_dispatch (p : CParams) (lookupFwd : Nat → Option (BIdx × List BIdx))
    (adjusted : Int) (pindexPrev : BIdx) (nBits : Nat) (blockFrom : CBlock)
    (nTxPrevOffset : Nat) (txPrev : CTransaction) (prevout : COutPoint)
    (nTimeTx : Nat) (fPrint : Bool) :
    CheckStakeKernelHash p lookupFwd adjusted pindexPrev nBits blockFrom nTxPrevOffset
        txPrev prevout nTimeTx fPrint
      = (if pindexPrev.nHeight + 1 > p.nProtocolV2Height
         then CheckStakeKernelHashV2 p pindexPrev nBits (toUInt32n blockFrom.nTime) txPrev prevout nTimeTx
         else CheckStakeKernelHashV1 p lookupFwd adjusted nBits blockFrom nTxPrevOffset
           txPrev prevout nTimeTx fPrint)
    ∧ (pindexPrev.nHeight + 1 = p.nProtocolV2Height →
        CheckStakeKernelHash p lookupFwd adjusted pindexPrev nBits blockFrom nTxPrevOffset
            txPrev prevout nTimeTx fPrint
          = CheckStakeKernelHashV1 p lookupFwd adjusted nBits blockFrom nTxPrevOffset
              txPrev prevout nTimeTx fPrint) := by
  refine ⟨rfl, fun hEq => ?_⟩
  unfold CheckStakeKernelHash
  rw [if_neg (by omega)]

/-- C6 witness: at prev height 999 with activation height 1000 the new
block height equals the activation height and the V1 check runs. -/
theorem claim6_version_dispatch_witness :
    idxC6.nHeight + 1 = pC6.nProtocolV2Height
    ∧ CheckStakeKernelHash pC6 (fun _ => none) 0 idxC6 486604799 blkC6 7 txPrevC6 ⟨9, 0⟩ 4100 false
      = CheckStakeKernelHashV1 pC6 (fun _ => none) 0 486604799 blkC6 7 txPrevC6 ⟨9, 0⟩ 4100 false :=
  ⟨by decide,
   (claim6_version_dispatch pC6 (fun _ => none) 0 idxC6 486604799 blkC6 7 txPrevC6 ⟨9, 0⟩
     4100 false).2 (by decide)⟩

/-- C7: CheckCoinStakeTimestamp accepts exactly when the block and tx
times agree and, above the V2 activation height, additionally the tx
time clears the stake timestamp mask. -/
theorem claim7_coinstake_timestamp (p : CParams) (nHeight nTimeBlock nTimeTx : Int) :
    CheckCoinStakeTimestamp p nHeight nTimeBlock nTimeTx = true
      ↔ (nTimeBlock = nTimeTx
         ∧ (nHeight > p.nProtocolV2Height → land64 nTimeTx p.stakeTimestampMask = 0)) := by
  unfold CheckCoinStakeTimestamp
  by_cases h : nHeight > p.nProtocolV2Height
  · simp [h]
  · simp [h]

/-- C7 witness: the spec scenario with mask 15, activation height 1000,
height 1001, both times 16. -/
theorem claim7_coinstake_timestamp_witness :
    CheckCoinStakeTimestamp pC7 1001 16 16 = true :=
  (claim7_coinstake_timestamp pC7 1001 16 16).mpr ⟨rfl, fun _ => by decide⟩

/-- Once both preflights pass, the V1 check only ever yields pass,
failHash or failModifier. -/
theorem v1_after_preflight (p : CParams) (lookupFwd : Nat → Option (BIdx × List BIdx))
    (adjusted : Int) (nBits : Nat) (blockFrom : CBlock) (nTxPrevOffset : Nat)
    (txPrev : CTransaction) (prevout : COutPoint) (nTimeTx : Nat) (fPrint : Bool)
    (h1 : ¬ nTimeTx < txPrev.nTime)
    (h2 : ¬ ((toUInt32n blockFrom.nTime : Int) + p.nStakeMinAge > (nTimeTx : Int))) :
    CheckStakeKernelHashV1 p lookupFwd adjusted nBits blockFrom nTxPrevOffset txPrev prevout
        nTimeTx fPrint ≠ KernelHashResult.errMinAge
    ∧ CheckStakeKernelHashV1 p lookupFwd adjusted nBits blockFrom nTxPrevOffset txPrev prevout
        nTimeTx fPrint ≠ KernelHashResult.errNTime := by
  unfold CheckStakeKernelHashV1
  rw [if_neg h1, if_neg h2]
  dsimp only
  rcases hmod : GetKernelStakeModifier p lookupFwd adjusted blockFrom.hashBlock fPrint with m | _ | _ <;>
    dsimp only <;>
    constructor <;>
    first
      | (split <;> simp)
      | simp

/-- Once both preflights pass, the V2 check only ever yields pass or
failHash. -/
theorem v2_after_preflight (p : CParams) (pindexPrev : BIdx) (nBits : Nat)
    (nTimeBlockFrom : Nat) (txPrev : CTransaction) (prevout : COutPoint) (nTimeTx : Nat)
    (h1 : ¬ nTimeTx < txPrev.nTime)
    (h2 : ¬ ((nTimeBlockFrom : Int) + p.nStakeMinAge > (nTimeTx : Int))) :
    CheckStakeKernelHashV2 p pindexPrev nBits nTimeBlockFrom txPrev prevout nTimeTx
        ≠ KernelHashResult.errMinAge
    ∧ CheckStakeKernelHashV2 p pindexPrev nBits nTimeBlockFrom txPrev prevout nTimeTx
        ≠ KernelHashResult.errNTime := by
  unfold CheckStakeKernelHashV2
  rw [if_neg h1, if_neg h2]
  dsimp only
  constructor <;> (split <;> simp)

/-- C1: whenever both preflights pass, the V2 kernel check computes the
target as the expanded compact target times the staked output value, the
proof as the double SHA-256 of the little-endian serialization of
(modifier u64, block-from time u32, prev tx time u32, prevout txid u256,
prevout index u32, tx time u32) in exactly this order with no framing,
and passes (returns true) exactly when the proof does not exceed the
target. -/
theorem claim1_v2_kernel (p : CParams) (pindexPrev : BIdx) (nBits : Nat)
    (nTimeBlockFrom : Nat) (txPrev : CTransaction) (prevout : COutPoint) (nTimeTx : Nat)
    (h1 : ¬ nTimeTx < txPrev.nTime)
    (h2 : (nTimeBlockFrom : Int) + p.nStakeMinAge ≤ (nTimeTx : Int)) :
    CheckStakeKernelHashV2 p pindexPrev nBits nTimeBlockFrom txPrev prevout nTimeTx
      = (if (Hash256 (serLE 8 pindexPrev.nStakeModifier ++ serLE 4 nTimeBlockFrom
              ++ serLE 4 txPrev.nTime ++ serLE 32 prevout.hash ++ serLE 4 prevout.n
              ++ serLE 4 nTimeTx) : Int)
            ≤ setCompactBig nBits * (txPrev.vout.getD prevout.n ⟨0⟩).nValue
         then KernelHashResult.pass
            (Hash256 (serLE 8 pindexPrev.nStakeModifier ++ serLE 4 nTimeBlockFrom
              ++ serLE 4 txPrev.nTime ++ serLE 32 prevout.hash ++ serLE 4 prevout.n
              ++ serLE 4 nTimeTx))
            (setCompactBig nBits * (txPrev.vout.getD prevout.n ⟨0⟩).nValue)
         else KernelHashResult.failHash
            (Hash256 (serLE 8 pindexPrev.nStakeModifier ++ serLE 4 nTimeBlockFrom
              ++ serLE 4 txPrev.nTime ++ serLE 32 prevout.hash ++ serLE 4 prevout.n
              ++ serLE 4 nTimeTx))
            (setCompactBig nBits * (txPrev.vout.getD prevout.n ⟨0⟩).nValue)) := by
  unfold CheckStakeKernelHashV2
  rw [if_neg h1, if_neg (not_lt.mpr h2)]
  dsimp only
  by_cases hc : (Hash256 (serLE 8 pindexPrev.nStakeModifier ++ serLE 4 nTimeBlockFrom
        ++ serLE 4 txPrev.nTime ++ serLE 32 prevout.hash ++ serLE 4 prevout.n
        ++ serLE 4 nTimeTx) : Int)
      ≤ setCompactBig nBits * (txPrev.vout.getD prevout.n ⟨0⟩).nValue
  · rw [if_neg (not_lt.mpr hc), if_pos hc]
  · rw [if_pos (not_le.mp hc), if_neg hc]

/-- C1 witness: concrete preflight-passing inputs. -/
theorem claim1_v2_kernel_witness :
    ¬ (5000 : Nat) < txPrevC1.nTime
    ∧ ((1000 : Nat) : Int) + pC1.nStakeMinAge ≤ ((5000 : Nat) : Int)
    ∧ CheckStakeKernelHashV2 pC1 idxC1 486604799 1000 txPrevC1 ⟨9, 0⟩ 5000
      = (if (Hash256 (serLE 8 idxC1.nStakeModifier ++ serLE 4 1000
              ++ serLE 4 txPrevC1.nTime ++ serLE 32 (9 : Nat) ++ serLE 4 (0 : Nat)
              ++ serLE 4 5000) : Int)
            ≤ setCompactBig 486604799 * (txPrevC1.vout.getD 0 ⟨0⟩).nValue
         then KernelHashResult.pass
            (Hash256 (serLE 8 idxC1.nStakeModifier ++ serLE 4 1000
              ++ serLE 4 txPrevC1.nTime ++ serLE 32 (9 : Nat) ++ serLE 4 (0 : Nat)
              ++ serLE 4 5000))
            (setCompactBig 486604799 * (txPrevC1.vout.getD 0 ⟨0⟩).nValue)
         else KernelHashResult.failHash
            (Hash256 (serLE 8 idxC1.nStakeModifier ++ serLE 4 1000
              ++ serLE 4 txPrevC1.nTime ++ serLE 32 (9 : Nat) ++ serLE 4 (0 : Nat)
              ++ serLE 4 5000))
            (setCompactBig 486604799 * (txPrevC1.vout.getD 0 ⟨0⟩).nValue)) :=
  ⟨by decide, by decide,
   claim1_v2_kernel pC1 idxC1 486604799 1000 txPrevC1 ⟨9, 0⟩ 5000 (by decide) (by decide)⟩

/-- C8: in both kernel versions, once the transaction-time preflight
passes, the min-age preflight rejects exactly when block-from time plus
min age strictly exceeds the tx time; at exact equality both versions
proceed past the preflights. -/
theorem claim8_min_age_boundary (p : CParams) (lookupFwd : Nat → Option (BIdx × List BIdx))
    (adjusted : Int) (nBits : Nat) (blockFrom : CBlock) (nTxPrevOffset : Nat)
    (txPrev : CTransaction) (prevout : COutPoint) (nTimeTx : Nat) (fPrint : Bool)
    (pindexPrev : BIdx) (nTimeBlockFrom : Nat)
    (h1 : ¬ nTimeTx < txPrev.nTime) :
    (CheckStakeKernelHashV1 p lookupFwd adjusted nBits blockFrom nTxPrevOffset txPrev prevout
        nTimeTx fPrint = KernelHashResult.errMinAge
      ↔ (toUInt32n blockFrom.nTime : Int) + p.nStakeMinAge > (nTimeTx : Int))
    ∧ (CheckStakeKernelHashV2 p pindexPrev nBits nTimeBlockFrom txPrev prevout nTimeTx
        = KernelHashResult.errMinAge
      ↔ (nTimeBlockFrom : Int) + p.nStakeMinAge > (nTimeTx : Int))
    ∧ ((toUInt32n blockFrom.nTime : Int) + p.nStakeMinAge = (nTimeTx : Int) →
        CheckStakeKernelHashV1 p lookupFwd adjusted nBits blockFrom nTxPrevOffset txPrev prevout
            nTimeTx fPrint ≠ KernelHashResult.errMinAge
        ∧ CheckStakeKernelHashV1 p lookupFwd adjusted nBits blockFrom nTxPrevOffset txPrev prevout
            nTimeTx fPrint ≠ KernelHashResult.errNTime)
    ∧ ((nTimeBlockFrom : Int) + p.nStakeMinAge = (nTimeTx : Int) →
        CheckStakeKernelHashV2 p pindexPrev nBits nTimeBlockFrom txPrev prevout nTimeTx
            ≠ KernelHashResult.errMinAge
        ∧ CheckStakeKernelHashV2 p pindexPrev nBits nTimeBlockFrom txPrev prevout nTimeTx
            ≠ KernelHashResult.errNTime) := by
  have hv1 : CheckStakeKernelHashV1 p lookupFwd adjusted nBits blockFrom nTxPrevOffset txPrev
      prevout nTimeTx fPrint = KernelHashResult.errMinAge
      ↔ (toUInt32n blockFrom.nTime : Int) + p.nStakeMinAge > (nTimeTx : Int) := by
    constructor
    · intro hEq
      by_contra hm
      exact (v1_after_preflight p lookupFwd adjusted nBits blockFrom nTxPrevOffset txPrev
        prevout nTimeTx fPrint h1 hm).1 hEq
    · intro hm
      unfold CheckStakeKernelHashV1
      rw [if_neg h1, if_pos hm]
  have hv2 : CheckStakeKernelHashV2 p pindexPrev nBits nTimeBlockFrom txPrev prevout nTimeTx
      = KernelHashResult.errMinAge
      ↔ (nTimeBlockFrom : Int) + p.nStakeMinAge > (nTimeTx : Int) := by
    constructor
    · intro hEq
      by_contra hm
      exact (v2_after_preflight p pindexPrev nBits nTimeBlockFrom txPrev prevout nTimeTx
        h1 hm).1 hEq
    · intro hm
      unfold CheckStakeKernelHashV2
      rw [if_neg h1, if_pos hm]
  refine ⟨hv1, hv2, fun hEq => ?_, fun hEq => ?_⟩
  · exact v1_after_preflight p lookupFwd adjusted nBits blockFrom nTxPrevOffset txPrev
      prevout nTimeTx fPrint h1 (by omega)
  · exact v2_after_preflight p pindexPrev nBits nTimeBlockFrom txPrev prevout nTimeTx
      h1 (by omega)

/-- C8 witness: min age 3600, block-from time 400, tx time 4000 sits
exactly at min age. -/
theorem claim8_min_age_boundary_witness :
    ¬ (4000 : Nat) < txPrevC8.nTime
    ∧ ((CheckStakeKernelHashV1 pC8 (fun _ => none) 0 486604799 blkC8 7 txPrevC8 ⟨9, 0⟩
          4000 false = KernelHashResult.errMinAge
        ↔ (toUInt32n blkC8.nTime : Int) + pC8.nStakeMinAge > ((4000 : Nat) : Int))
      ∧ (CheckStakeKernelHashV2 pC8 idxC8 486604799 400 txPrevC8 ⟨9, 0⟩ 4000
          = KernelHashResult.errMinAge
        ↔ ((400 : Nat) : Int) + pC8.nStakeMinAge > ((4000 : Nat) : Int))
      ∧ ((toUInt32n blkC8.nTime : Int) + pC8.nStakeMinAge = ((4000 : Nat) : Int) →
          CheckStakeKernelHashV1 pC8 (fun _ => none) 0 486604799 blkC8 7 txPrevC8 ⟨9, 0⟩
              4000 false ≠ KernelHashResult.errMinAge
          ∧ CheckStakeKernelHashV1 pC8 (fun _ => none) 0 486604799 blkC8 7 txPrevC8 ⟨9, 0⟩
              4000 false ≠ KernelHashResult.errNTime)
      ∧ (((400 : Nat) : Int) + pC8.nStakeMinAge = ((4000 : Nat) : Int) →
          CheckStakeKernelHashV2 pC8 idxC8 486604799 400 txPrevC8 ⟨9, 0⟩ 4000
              ≠ KernelHashResult.errMinAge
          ∧ CheckStakeKernelHashV2 pC8 idxC8 486604799 400 txPrevC8 ⟨9, 0⟩ 4000
              ≠ KernelHashResult.errNTime)) :=
  ⟨by decide,
   claim8_min_age_boundary pC8 (fun _ => none) 0 486604799 blkC8 7 txPrevC8 ⟨9, 0⟩ 4000
     false idxC8 400 (by decide)⟩

/-- When every candidate resolves in the block index, the source scan
equals the claim-side scan over the resolved candidates, for every
starting best. -/
theorem selectLoop_eq_spec (lookup : Nat → Option BIdx) (selected : List Nat)
    (stop : Int) (pm : Nat) :
    ∀ (cands : List (Int × Nat)) (best : Option (Nat × BIdx)),
      (∀ c ∈ cands, (lookup c.2).isSome = true) →
      selectLoop lookup selected stop pm cands best
        = selectSpecLoop selected stop pm (cands.filterMap (fun c => lookup c.2)) best := by
  intro cands
  induction cands with
  | nil =>
    intro best h
    rfl
  | cons c rest ih =>
    intro best h
    obtain ⟨b, hb⟩ := Option.isSome_iff_exists.mp (h c (List.mem_cons_self c rest))
    have hrest : ∀ x ∈ rest, (lookup x.2).isSome = true :=
      fun x hx => h x (List.mem_cons_of_mem c hx)
    simp only [selectLoop, selectSpecLoop, List.filterMap_cons, hb]
    rcases best with _ | ⟨hbv, bi⟩ <;>
      dsimp only <;>
      split_ifs <;>
      first
        | rfl
        | exact ih _ hrest

/-- C2: for every sorted candidate list whose entries all resolve in the
block index, the per-round selection behaves exactly as the claim words
it — same scan order, stop condition, skip of selected blocks, selection
hash with the proof-of-stake right shift, strictly-smaller replacement,
and failure exactly when nothing was selectable — as captured by the
claim-side scan over the resolved candidates. -/
theorem claim2_select_refines (lookup : Nat → Option BIdx)
    (vSortedByTimestamp : List (Int × Nat)) (selectedBlocks : List Nat)
    (stop : Int) (pm : Nat)
    (hres : ∀ c ∈ vSortedByTimestamp, (lookup c.2).isSome = true) :
    SelectBlockFromCandidates lookup vSortedByTimestamp selectedBlocks stop pm
      = selectSpecLoop selectedBlocks stop pm
          (vSortedByTimestamp.filterMap (fun c => lookup c.2)) none :=
  selectLoop_eq_spec lookup selectedBlocks stop pm vSortedByTimestamp none hres

/-- C2 witness: a one-candidate list under a resolving index. -/
theorem claim2_select_refines_witness :
    (∀ c ∈ [((50 : Int), (70 : Nat))], (lookupC2 c.2).isSome = true)
    ∧ SelectBlockFromCandidates lookupC2 [(50, 70)] [] 100 5
      = selectSpecLoop [] 100 5 ([((50 : Int), (70 : Nat))].filterMap (fun c => lookupC2 c.2)) none :=
  ⟨by decide, claim2_select_refines lookupC2 [(50, 70)] [] 100 5 (by decide)⟩

/-- When the forward walk stalls at a tip, the modifier loop answers with
hard error or soft false according to the print flag and the min-age test
on the tip node. -/
theorem kernelLoop_at_tip (p : CParams) (adjusted : Int) (fPrint : Bool)
    (interval targetTime : Int) (tip : BIdx) :
    ∀ (rest : List BIdx) (cur : BIdx) (modTime : Int),
      kernelWalkTip targetTime cur rest modTime = some tip →
      getKernelStakeModifierLoop p adjusted fPrint interval targetTime cur rest modTime
        = if fPrint = true ∨ tip.nTime + p.nStakeMinAge - interval > adjusted
          then KernelModResult.hardErr else KernelModResult.softFail := by
  intro rest
  induction rest with
  | nil =>
    intro cur modTime hw
    unfold kernelWalkTip at hw
    unfold getKernelStakeModifierLoop
    by_cases hlt : modTime < targetTime
    · rw [if_pos hlt] at hw ⊢
      dsimp only at hw ⊢
      cases hw
      rfl
    · rw [if_neg hlt] at hw
      cases hw
  | cons nxt rest2 ih =>
    intro cur modTime hw
    unfold kernelWalkTip at hw
    unfold getKernelStakeModifierLoop
    by_cases hlt : modTime < targetTime
    · rw [if_pos hlt] at hw ⊢
      dsimp only at hw ⊢
      exact ih nxt _ hw
    · rw [if_neg hlt] at hw
      cases hw

/-- C3 counterexample: a walk from a very old block (time 0) that stalls
at a very recent tip (time 10^9).  The code hard-errors — it applies the
min-age test to the tip node it reached — although the test the claim
states, on the from-block time, is false and print mode is off, so the
claim predicts soft-false. -/
theorem claim3_counterexample :
    kernelWalkTip (bC3a.nTime + GetStakeModifierSelectionInterval pC3) bC3a [bC3b] bC3a.nTime
      = some bC3b
    ∧ GetKernelStakeModifier pC3 lookupC3 1000000 70 false = KernelModResult.hardErr
    ∧ ¬((false : Bool) = true
        ∨ bC3a.nTime + pC3.nStakeMinAge - GetStakeModifierSelectionInterval pC3 > (1000000 : Int)) := by
  refine ⟨by decide, by decide, by decide⟩

/-- C3 as amended: when the forward walk stalls at a tip before the
modifier time reaches the from-block time plus the selection interval,
GetKernelStakeModifier hard-errors exactly when printing or when the TIP
node (the node the walk stopped at, not the from-block) satisfies
tip time + min age - selection interval > adjusted time, and otherwise
returns soft-false. -/
theorem claim3_amended_tip_time (p : CParams) (lookupFwd : Nat → Option (BIdx × List BIdx))
    (adjusted : Int) (hashBlockFrom : Nat) (fPrint : Bool) (pfrom : BIdx)
    (fwd : List BIdx) (tip : BIdx)
    (hl : lookupFwd hashBlockFrom = some (pfrom, fwd))
    (hw : kernelWalkTip (pfrom.nTime + GetStakeModifierSelectionInterval p) pfrom fwd pfrom.nTime
      = some tip) :
    GetKernelStakeModifier p lookupFwd adjusted hashBlockFrom fPrint
      = if fPrint = true ∨ tip.nTime + p.nStakeMinAge - GetStakeModifierSelectionInterval p > adjusted
        then KernelModResult.hardErr else KernelModResult.softFail := by
  unfold GetKernelStakeModifier
  rw [hl]
  dsimp only
  exact kernelLoop_at_tip p adjusted fPrint _ _ tip fwd pfrom pfrom.nTime hw

/-- C3 amended witness: the counterexample chain, where the tip-side test
holds and the walk hard-errors. -/
theorem claim3_amended_tip_time_witness :
    lookupC3 70 = some (bC3a, [bC3b])
    ∧ kernelWalkTip (bC3a.nTime + GetStakeModifierSelectionInterval pC3) bC3a [bC3b] bC3a.nTime
      = some bC3b
    ∧ GetKernelStakeModifier pC3 lookupC3 1000000 70 false
      = if ((false : Bool) = true
            ∨ bC3b.nTime + pC3.nStakeMinAge - GetStakeModifierSelectionInterval pC3 > (1000000 : Int))
        then KernelModResult.hardErr else KernelModResult.softFail :=
  ⟨by decide, by decide,
   claim3_amended_tip_time pC3 lookupC3 1000000 70 false bC3a [bC3b] bC3b (by decide) (by decide)⟩

/-- C9 as amended: through CheckProofOfStake, every failure of the kernel
hash check — preflight violations included — is rejected through the one
kernel-failure path with the low DoS score 1, the same as a kernel
comparison miss. -/
theorem claim9_amended_soft_dos (p : CParams) (env : Env) (pindexPrev : BIdx)
    (tx : CTransaction) (nBits : Nat) (coinPrev : Coin) (bfi : BIdx) (blk : CBlock)
    (txPrev : CTransaction)
    (h0 : tx.isCoinStake = true)
    (h1 : env.getCoin (tx.vin.getD 0 ⟨⟨0, 0⟩⟩).prevout = some coinPrev)
    (h2 : env.getAncestor coinPrev.nHeight = some bfi)
    (h3 : env.readBlock bfi = some blk)
    (h4 : env.getTransaction (tx.vin.getD 0 ⟨⟨0, 0⟩⟩).prevout.hash = some txPrev)
    (h5 : env.verifySignature coinPrev tx = true)
    (h6 : ∀ h t, CheckStakeKernelHash p env.lookupFwd env.adjustedTime pindexPrev nBits blk
        (env.readTxOffset pindexPrev.nHeight) txPrev (tx.vin.getD 0 ⟨⟨0, 0⟩⟩).prevout
        tx.nTime env.fDebug ≠ KernelHashResult.pass h t) :
    CheckProofOfStake p env pindexPrev tx nBits = PoSResult.dos 1 DosTag.kernel := by
  unfold CheckProofOfStake
  rw [if_neg (by simp [h0])]
  dsimp only
  rw [h1]
  dsimp only
  rw [h2]
  dsimp only
  rw [h3]
  dsimp only
  rw [h4]
  dsimp only
  rw [if_neg (by simp [h5])]
  cases hker : CheckStakeKernelHash p env.lookupFwd env.adjustedTime pindexPrev nBits blk
      (env.readTxOffset pindexPrev.nHeight) txPrev (tx.vin.getD 0 ⟨⟨0, 0⟩⟩).prevout
      tx.nTime env.fDebug with
  | pass h t => exact absurd hker (h6 h t)
  | failHash h t => rfl
  | errNTime => rfl
  | errMinAge => rfl
  | failModifier => rfl

/-- C9 counterexample: a coinstake whose kernel preflight fails (its time
50 is below the prev tx time 100, the nTime violation) while every other
collaborator succeeds.  CheckProofOfStake rejects it with DoS score 1 —
the same soft treatment as a kernel comparison miss — not the ban-worthy
high score the claim states. -/
theorem claim9_counterexample :
    CheckStakeKernelHash pC9 envC9.lookupFwd envC9.adjustedTime idxC9 486604799 blkC9
        (envC9.readTxOffset idxC9.nHeight) txPrevC9 (txC9.vin.getD 0 ⟨⟨0, 0⟩⟩).prevout
        txC9.nTime envC9.fDebug = KernelHashResult.errNTime
    ∧ CheckProofOfStake pC9 envC9 idxC9 txC9 486604799 = PoSResult.dos 1 DosTag.kernel := by
  refine ⟨by decide, by decide⟩

/-- C9 amended witness: the counterexample instance run through the
amended theorem. -/
theorem claim9_amended_soft_dos_witness :
    txC9.isCoinStake = true
    ∧ envC9.verifySignature coinC9 txC9 = true
    ∧ CheckStakeKernelHash pC9 envC9.lookupFwd envC9.adjustedTime idxC9 486604799 blkC9
        (envC9.readTxOffset idxC9.nHeight) txPrevC9 (txC9.vin.getD 0 ⟨⟨0, 0⟩⟩).prevout
        txC9.nTime envC9.fDebug = KernelHashResult.errNTime
    ∧ CheckProofOfStake pC9 envC9 idxC9 txC9 486604799 = PoSResult.dos 1 DosTag.kernel := by
  have hk : CheckStakeKernelHash pC9 envC9.lookupFwd envC9.adjustedTime idxC9 486604799 blkC9
      (envC9.readTxOffset idxC9.nHeight) txPrevC9 (txC9.vin.getD 0 ⟨⟨0, 0⟩⟩).prevout
      txC9.nTime envC9.fDebug = KernelHashResult.errNTime := by decide
  refine ⟨by decide, by decide, hk, ?_⟩
  exact claim9_amended_soft_dos pC9 envC9 idxC9 txC9 486604799 coinC9 bfiC9 blkC9 txPrevC9
    (by decide) (by decide) (by decide) (by decide) (by decide) (by decide)
    (fun h t hc => by rw [hk] at hc; cases hc)

/-- C10: when generation runs (new epoch) and some selection round
fails, ComputeNextStakeModifier returns with its out-parameters exactly
as GetLastStakeModifier left them: the last recorded modifier and a
false generated flag; the partial new modifier is never exposed. -/
theorem claim10_failure_preserves_outputs (p : CParams) (lookup : Nat → Option BIdx)
    (prev : BIdx) (rest : List BIdx) (m : Nat) (tmod : Int)
    (hg : GetLastStakeModifier (prev :: rest) = some (m, tmod))
    (he : Int.tdiv tmod p.nModifierInterval < Int.tdiv prev.nTime p.nModifierInterval)
    (hf : (ComputeNextStakeModifier p lookup (prev :: rest)).ok = false) :
    ComputeNextStakeModifier p lookup (prev :: rest) = ⟨false, m, false⟩ := by
  revert hf
  unfold ComputeNextStakeModifier
  rw [hg]
  dsimp only
  rw [if_neg (not_le.mpr he)]
  split
  · intro _
    rfl
  · intro hfal
    simp at hfal

/-- C10 witness: a two-node chain in a new epoch under an empty block
index map, so round 0 fails; the outputs keep modifier 42 and a false
flag. -/
theorem claim10_failure_preserves_outputs_witness :
    GetLastStakeModifier [bC10b, bC10a] = some (42, 1000)
    ∧ Int.tdiv (1000 : Int) pC10.nModifierInterval < Int.tdiv bC10b.nTime pC10.nModifierInterval
    ∧ (ComputeNextStakeModifier pC10 (fun _ => none) [bC10b, bC10a]).ok = false
    ∧ ComputeNextStakeModifier pC10 (fun _ => none) [bC10b, bC10a] = ⟨false, 42, false⟩ :=
  ⟨by decide, by decide, by decide,
   claim10_failure_preserves_outputs pC10 (fun _ => none) bC10b [bC10a] 42 1000
     (by decide) (by decide) (by decide)⟩

end ClamsE
